import Mathlib

/-!
Shallow embedding of the incremental data-binding pipeline of the S2 geometry
layer (src/layers/s2-geometry-layer/s2-geometry-layer.js): the memoized
S2IdAccessor / S2IdResolver pair, the formatLayerData binder with its
reuse-or-rebuild decision, the updateLayerMeta geometry-recompute side effect,
the filtered-index rebuild loop, and the per-channel encoded-value resolvers.

Modelling conventions:
* JavaScript values that may be undefined are Option; reading a property of
  undefined raises a TypeError, modelled with Except JsErr.
* Reference identity of JS function objects and arrays is modelled with an
  explicit allocation tag (ref : Nat) drawn from per-kind counters held in the
  layer state; two closures (or two arrays) are the same JS object exactly when
  their tags agree.
* External collaborators whose bodies are outside this source file
  (base-layer methods getVisChannelScale, getEncodedChannelValue,
  updateLayerMeta, and the hexToRgb utility) are carried as uninterpreted
  function parameters in an Externals record.
* The side effect updateLayerMeta and the rebuild/reuse decision are recorded
  in a ghost event trace so that ordering claims are expressible.
-/

namespace S2Geometry

/-- JavaScript runtime error observable in this fragment: property access on
undefined raises a TypeError. -/
inductive JsErr where
  | typeError
deriving DecidableEq

/-- Field descriptor bound to the s2_id column role; in JS the fieldIdx
property of the descriptor may itself be absent (undefined). -/
structure S2Col where
  fieldIdx : Option Nat
deriving DecidableEq

/-- Column binding object destructured as ({s2_id}) by the accessor and the
resolver; the s2_id property may be absent (undefined). -/
structure Columns where
  s2_id : Option S2Col
deriving DecidableEq

/-- S2IdResolver = ({s2_id}) => s2_id.fieldIdx.  Reading fieldIdx of an absent
s2_id raises a TypeError; otherwise the memo cache key is the field index. -/
def S2IdResolver (c : Columns) : Except JsErr (Option Nat) :=
  match c.s2_id with
  | none => .error .typeError
  | some col => .ok col.fieldIdx

/-- Closure created by S2IdAccessor: ref is the allocation identity of the JS
function object, captured is the s2_id value captured at creation time. -/
structure AccessorInst where
  ref : Nat
  captured : Option S2Col
deriving DecidableEq

/-- S2IdAccessor = ({s2_id}) => d => d[s2_id.fieldIdx]: creating the closure
only captures s2_id; nothing is evaluated until the closure is applied. -/
def S2IdAccessor (c : Columns) (ref : Nat) : AccessorInst :=
  { ref := ref, captured := c.s2_id }

/-- Applying the closure d => d[s2_id.fieldIdx] to a (possibly undefined) row:
s2_id.fieldIdx is evaluated first (TypeError when s2_id is undefined), then the
row is indexed (TypeError when the row is undefined); indexing an array by
undefined or by an out-of-range index yields undefined. -/
def applyAccessor {V : Type} (a : AccessorInst) (d : Option (List V)) :
    Except JsErr (Option V) :=
  match a.captured with
  | none => .error .typeError
  | some col =>
    match d with
    | none => .error .typeError
    | some row =>
      match col.fieldIdx with
      | none => .ok none
      | some i => .ok row[i]?

/-- Value of a successful accessor application (the undefined-aware read). -/
def accessorOk {V : Type} (a : AccessorInst) (d : Option (List V)) : Option V :=
  match a.captured, d with
  | some col, some row =>
    match col.fieldIdx with
    | none => none
    | some i => row[i]?
  | _, _ => none

/-- Per-layer dataToFeature cache filled by the external geometry component:
centroids is a per-raw-index table (the property may be absent before the
first recompute); hexagonVertices and hexagonCenter are passed through. -/
structure DTF (C J : Type) where
  centroids : Option (List (Option C))
  hexagonVertices : Option J
  hexagonCenter : Option J
deriving DecidableEq

/-- Mutable layer-instance state: the lodash.memoize cache behind this.getS2Id
(key = resolver result, value = the cached closure), the allocation counter for
closure identities, the dataToFeature geometry cache, and the allocation
counter for derived-array identities. -/
structure LayerState (C J : Type) where
  memoCache : List (Option Nat × AccessorInst)
  nextAccRef : Nat
  dataToFeature : DTF C J
  nextArrRef : Nat
deriving DecidableEq

/-- this.getS2Id = memoize(S2IdAccessor, S2IdResolver): compute the cache key
via the resolver (which may throw), return the cached closure on a hit,
otherwise allocate a fresh closure and cache it under the key. -/
def getS2IdMemo {C J : Type} (c : Columns) (st : LayerState C J) :
    Except JsErr (AccessorInst × LayerState C J) :=
  match S2IdResolver c with
  | .error e => .error e
  | .ok k =>
    match st.memoCache.lookup k with
    | some a => .ok (a, st)
    | none =>
      .ok (S2IdAccessor c st.nextAccRef,
        { st with
          memoCache := (k, S2IdAccessor c st.nextAccRef) :: st.memoCache
          nextAccRef := st.nextAccRef + 1 })

/-- One derived record pushed by the rebuild loop:
accu.push({index: i, data: allData[index], id, centroid}). -/
structure DerivedRow (V C : Type) where
  index : Nat
  data : Option (List V)
  id : Option V
  centroid : C
deriving DecidableEq

/-- A JS array value together with its allocation identity: two arrays are the
same JS object exactly when their refs agree. -/
structure JsArr (α : Type) where
  ref : Nat
  items : List α
deriving DecidableEq

/-- The slice of a previous formatLayerData result that the binder reads:
oldLayerData.data and oldLayerData.getS2Id (either property may be absent). -/
structure OldFrame (V C : Type) where
  data : Option (JsArr (DerivedRow V C))
  getS2Id : Option AccessorInst
deriving DecidableEq

/-- Call options; opt.sameData is falsy when the option object is empty. -/
structure FormatOpt where
  sameData : Bool
deriving DecidableEq

/-- Ghost event trace: the updateLayerMeta side effect (with the raw dataset it
was handed and the identity of the accessor it was handed) and whether the
derived dataset was rebuilt or reused. -/
inductive Event (V : Type) where
  | updateMeta (allData : List (List V)) (accRef : Nat)
  | buildData
  | reuseData
deriving DecidableEq

/-- A deck.gl channel accessor: either a per-record function or a constant
attribute value (the code returns the bare constant when no scale exists). -/
inductive ChannelOut (R W : Type) where
  | fn (f : R → W)
  | const (w : W)

/-- deck.gl evaluation of a channel accessor at a record: functions are applied
per record, constant attribute values apply to every record. -/
def resolveChannel {R W : Type} : ChannelOut R W → R → W
  | .fn f, r => f r
  | .const w, _ => w

/-- visConfig.colorRange, whose colors property is mapped through hexToRgb. -/
structure ColorRange (J : Type) where
  colors : List J
deriving DecidableEq

/-- The slice of this.config.visConfig destructured by formatLayerData. -/
structure VisConfig (J : Type) where
  sizeRange : J
  colorRange : ColorRange J
  coverageRange : J
deriving DecidableEq

/-- The slice of this.config destructured by formatLayerData. -/
structure Config (F RGB J : Type) where
  colorScale : J
  colorDomain : J
  colorField : Option F
  color : RGB
  columns : Columns
  sizeField : Option F
  sizeScale : J
  sizeDomain : J
  coverageField : Option F
  coverageScale : J
  coverageDomain : J
  visConfig : VisConfig J

/-- External collaborators of formatLayerData whose bodies live outside this
source file, carried as uninterpreted functions: the base-layer scale builder
(getVisChannelScale, in its three-argument color form and four-argument fixed
form), the base-layer encoded-value reader (getEncodedChannelValue, in its
color and numeric forms), the hexToRgb colour utility, and updateLayerMeta.
Modelled from the spec: updateLayerMeta is the base-layer method (absent from
this file) that signals the external geometry component to recompute the
dataToFeature cache for the full raw dataset using the current id accessor;
here it is an arbitrary function producing the refreshed cache. -/
structure Externals (V C RGB F S J : Type) where
  hexToRgb : J → RGB
  getVisChannelScale : J → J → List RGB → S
  getVisChannelScaleFixed : J → J → J → Int → S
  getEncodedChannelValueColor : S → Option (List V) → F → RGB
  getEncodedChannelValueNum : S → Option (List V) → F → Int → Int
  updateLayerMeta : List (List V) → AccessorInst → DTF C J

/-- The object returned by formatLayerData. -/
structure FrameOut (V C RGB J : Type) where
  data : JsArr (DerivedRow V C)
  getElevation : ChannelOut (DerivedRow V C) Int
  getColor : ChannelOut (DerivedRow V C) RGB
  getS2Id : AccessorInst
  getCoverage : ChannelOut (DerivedRow V C) Int
  hexagonVertices : Option J
  hexagonCenter : Option J

/-- getElevation = sScale ? d => this.getEncodedChannelValue(sScale, d.data,
sizeField, 0) : 0, with sScale = sizeField && this.getVisChannelScale(sizeScale,
sizeDomain, sizeRange, 0); the scale exists exactly when sizeField is set. -/
def mkGetElevation {V C RGB F S J : Type} (E : Externals V C RGB F S J)
    (cfg : Config F RGB J) : ChannelOut (DerivedRow V C) Int :=
  match cfg.sizeField with
  | some sizeField =>
    ChannelOut.fn fun d =>
      E.getEncodedChannelValueNum
        (E.getVisChannelScaleFixed cfg.sizeScale cfg.sizeDomain
          cfg.visConfig.sizeRange 0)
        d.data sizeField 0
  | none => ChannelOut.const 0

/-- getColor = cScale ? d => this.getEncodedChannelValue(cScale, d.data,
colorField) : color, with cScale = colorField && this.getVisChannelScale(
colorScale, colorDomain, colorRange.colors.map(hexToRgb)). -/
def mkGetColor {V C RGB F S J : Type} (E : Externals V C RGB F S J)
    (cfg : Config F RGB J) : ChannelOut (DerivedRow V C) RGB :=
  match cfg.colorField with
  | some colorField =>
    ChannelOut.fn fun d =>
      E.getEncodedChannelValueColor
        (E.getVisChannelScale cfg.colorScale cfg.colorDomain
          (cfg.visConfig.colorRange.colors.map E.hexToRgb))
        d.data colorField
  | none => ChannelOut.const cfg.color

/-- getCoverage = coScale ? d => this.getEncodedChannelValue(coScale, d.data,
coverageField, 0) : 1, with coScale = coverageField && this.getVisChannelScale(
coverageScale, coverageDomain, coverageRange, 0). -/
def mkGetCoverage {V C RGB F S J : Type} (E : Externals V C RGB F S J)
    (cfg : Config F RGB J) : ChannelOut (DerivedRow V C) Int :=
  match cfg.coverageField with
  | some coverageField =>
    ChannelOut.fn fun d =>
      E.getEncodedChannelValueNum
        (E.getVisChannelScaleFixed cfg.coverageScale cfg.coverageDomain
          cfg.visConfig.coverageRange 0)
        d.data coverageField 0
  | none => ChannelOut.const 1

/-- Reference comparison oldLayerData.getS2Id === getS2Id: the stored property
may be absent, and undefined is never identical to a function object. -/
def sameAccessorRef (o : Option AccessorInst) (a : AccessorInst) : Bool :=
  match o with
  | some b => b.ref == a.ref
  | none => false

/-- Condition of the side-effect branch:
!oldLayerData || oldLayerData.getS2Id !== getS2Id. -/
def metaNeeded {V C : Type} (old : Option (OldFrame V C)) (a : AccessorInst) :
    Bool :=
  match old with
  | none => true
  | some o => !(sameAccessorRef o.getS2Id a)

/-- State after the conditional this.updateLayerMeta(allData, getS2Id) call. -/
def metaStep {V C RGB F S J : Type} (E : Externals V C RGB F S J)
    (allData : List (List V)) (old : Option (OldFrame V C)) (a : AccessorInst)
    (st : LayerState C J) : LayerState C J :=
  if metaNeeded old a then
    { st with dataToFeature := E.updateLayerMeta allData a }
  else st

/-- Ghost events emitted by the conditional updateLayerMeta call. -/
def metaEvents {V C : Type} (allData : List (List V))
    (old : Option (OldFrame V C)) (a : AccessorInst) : List (Event V) :=
  if metaNeeded old a then [Event.updateMeta allData a.ref] else []

/-- Reuse decision: oldLayerData && oldLayerData.data && opt.sameData &&
oldLayerData.getS2Id === getS2Id.  A JS array (even an empty one) is truthy, so
the data test only checks that the property is defined. -/
def reuseArr {V C : Type} (old : Option (OldFrame V C)) (opt : FormatOpt)
    (a : AccessorInst) : Option (JsArr (DerivedRow V C)) :=
  match old with
  | some o =>
    match o.data with
    | some arr =>
      if opt.sameData && sameAccessorRef o.getS2Id a then some arr else none
    | none => none
  | none => none

/-- Centroid lookup this.dataToFeature.centroids[index] flattened to a single
Option (undefined when the table or the entry is missing). -/
def centsGet {C : Type} (cents : Option (List (Option C))) (idx : Nat) :
    Option C :=
  match cents with
  | none => none
  | some l =>
    match l[idx]? with
    | some c => c
    | none => none

/-- The rebuild loop filteredIndex.reduce((accu, index, i) => ..., []), taken
over the position-enumerated filtered indices: read the id via the accessor
(may throw), read this.dataToFeature.centroids[index] (throws when the
centroids table is absent), and push the derived record only when the centroid
is defined. -/
def buildRows {V C : Type} (acc : AccessorInst) (allData : List (List V))
    (cents : Option (List (Option C))) :
    List (Nat × Nat) → Except JsErr (List (DerivedRow V C))
  | [] => .ok []
  | (i, index) :: rest =>
    match applyAccessor acc allData[index]? with
    | .error e => .error e
    | .ok id =>
      match cents with
      | none => .error JsErr.typeError
      | some _ =>
        match buildRows acc allData cents rest with
        | .error e => .error e
        | .ok tail =>
          match centsGet cents index with
          | some c =>
            .ok ({ index := i, data := allData[index]?, id := id,
                   centroid := c } :: tail)
          | none => .ok tail

/-- The derived record produced for one enumerated filtered index, or none when
its centroid is missing; the rebuilt dataset is the filterMap of this function
over the enumerated filtered indices. -/
def builtRow {V C : Type} (a : AccessorInst) (allData : List (List V))
    (cents : Option (List (Option C))) (p : Nat × Nat) :
    Option (DerivedRow V C) :=
  match centsGet cents p.2 with
  | some c =>
    some { index := p.1, data := allData[p.2]?,
           id := accessorOk a allData[p.2]?, centroid := c }
  | none => none

/-- The result object of formatLayerData: the chosen dataset, the three channel
resolvers, the id accessor, and the two geometry pass-through handles read from
the (possibly refreshed) dataToFeature cache. -/
def mkFrame {V C RGB F S J : Type} (E : Externals V C RGB F S J)
    (cfg : Config F RGB J) (a : AccessorInst) (arr : JsArr (DerivedRow V C))
    (st : LayerState C J) : FrameOut V C RGB J :=
  { data := arr
    getElevation := mkGetElevation E cfg
    getColor := mkGetColor E cfg
    getS2Id := a
    getCoverage := mkGetCoverage E cfg
    hexagonVertices := st.dataToFeature.hexagonVertices
    hexagonCenter := st.dataToFeature.hexagonCenter }

/-- Body of formatLayerData after the id accessor has been resolved: perform
the conditional updateLayerMeta side effect, then either reuse the previous
derived dataset verbatim or rebuild it from the filtered indices (allocating a
fresh array), and assemble the result object. -/
def formatBody {V C RGB F S J : Type} (E : Externals V C RGB F S J)
    (cfg : Config F RGB J) (a : AccessorInst) (st1 : LayerState C J)
    (allData : List (List V)) (fi : List Nat) (old : Option (OldFrame V C))
    (opt : FormatOpt) :
    Except JsErr (FrameOut V C RGB J × LayerState C J × List (Event V)) :=
  let st2 := metaStep E allData old a st1
  match reuseArr old opt a with
  | some arr =>
    .ok (mkFrame E cfg a arr st2, st2, metaEvents allData old a ++ [Event.reuseData])
  | none =>
    match buildRows a allData st2.dataToFeature.centroids fi.enum with
    | .error e => .error e
    | .ok rows =>
      .ok (mkFrame E cfg a { ref := st2.nextArrRef, items := rows }
             { st2 with nextArrRef := st2.nextArrRef + 1 },
           { st2 with nextArrRef := st2.nextArrRef + 1 },
           metaEvents allData old a ++ [Event.buildData])

/-- formatLayerData(_, allData, filteredIndex, oldLayerData, opt): resolve the
(memoized) id accessor from the column binding, then run the binder body.  The
channel scales are pure and order-independent, so their construction is folded
into the channel resolvers of the result object. -/
def formatLayerData {V C RGB F S J : Type} (E : Externals V C RGB F S J)
    (cfg : Config F RGB J) (st : LayerState C J) (allData : List (List V))
    (fi : List Nat) (old : Option (OldFrame V C)) (opt : FormatOpt) :
    Except JsErr (FrameOut V C RGB J × LayerState C J × List (Event V)) :=
  match getS2IdMemo cfg.columns st with
  | .error e => .error e
  | .ok (a, st1) => formatBody E cfg a st1 allData fi old opt

/-- The reuse conditions as the specification states them, with the defined
(truthy) test the code actually performs in place of the claimed non-emptiness:
a previous frame exists, its data property is defined, the caller passed
sameData, and the stored accessor reference equals the current one. -/
def reuseConditions {V C : Type} (old : Option (OldFrame V C))
    (opt : FormatOpt) (a : AccessorInst) : Bool :=
  match old with
  | some o => o.data.isSome && opt.sameData && sameAccessorRef o.getS2Id a
  | none => false

/-- Boolean success projection of the binder result. -/
def isOkE {ε α : Type} : Except ε α → Bool
  | .ok _ => true
  | .error _ => false

/-- Derived rows of a successful binder result (empty on an error). -/
def okItems {V C RGB J : Type}
    (r : Except JsErr (FrameOut V C RGB J × LayerState C J × List (Event V))) :
    List (DerivedRow V C) :=
  match r with
  | .ok (o, _, _) => o.data.items
  | .error _ => []

/-! Concrete instantiation used to evaluate the binder on closed inputs:
cell values, centroids, and colours are natural numbers, field descriptors and
the remaining configuration plumbing are Unit, and the external collaborators
are constant functions whose geometry recompute yields a centroid only for raw
index 0. -/

def extW : Externals Nat Nat Nat Unit Unit Unit :=
  { hexToRgb := fun _ => 0
    getVisChannelScale := fun _ _ _ => ()
    getVisChannelScaleFixed := fun _ _ _ _ => ()
    getEncodedChannelValueColor := fun _ _ _ => 0
    getEncodedChannelValueNum := fun _ _ _ _ => 0
    updateLayerMeta := fun _ _ =>
      { centroids := some [some 7, none]
        hexagonVertices := none
        hexagonCenter := none } }

def visW : VisConfig Unit :=
  { sizeRange := (), colorRange := { colors := [] }, coverageRange := () }

def cfgW : Config Unit Nat Unit :=
  { colorScale := (), colorDomain := (), colorField := none, color := 5
    columns := { s2_id := some { fieldIdx := some 0 } }
    sizeField := none, sizeScale := (), sizeDomain := ()
    coverageField := none, coverageScale := (), coverageDomain := ()
    visConfig := visW }

/-- The accessor closure the memo cache of stW holds for field index 0. -/
def accW : AccessorInst := { ref := 0, captured := some { fieldIdx := some 0 } }

def dtfW : DTF Nat Unit :=
  { centroids := some [some 7, none], hexagonVertices := none,
    hexagonCenter := none }

def stW : LayerState Nat Unit :=
  { memoCache := [(some 0, accW)], nextAccRef := 1, dataToFeature := dtfW,
    nextArrRef := 1 }

/-- A previous frame carrying a defined but empty derived dataset together with
the cached accessor closure. -/
def oldW : OldFrame Nat Nat :=
  { data := some { ref := 0, items := [] }, getS2Id := some accW }

/-- State of stW after one rebuild (the array allocation counter advanced). -/
def stW2 : LayerState Nat Unit := { stW with nextArrRef := 2 }

/-- The derived record the rebuild produces for raw index 0 of [[3], [4]]. -/
def rowW : DerivedRow Nat Nat :=
  { index := 0, data := some [3], id := some 3, centroid := 7 }

/-! Supporting lemmas about the embedded operations. -/

theorem applyAccessor_ok {V : Type} {a : AccessorInst} {d : Option (List V)}
    {v : Option V} (h : applyAccessor a d = .ok v) : v = accessorOk a d := by
  cases hc : a.captured with
  | none => simp [applyAccessor, hc] at h
  | some col =>
    cases d with
    | none => simp [applyAccessor, hc] at h
    | some row =>
      cases hf : col.fieldIdx with
      | none =>
        simp [applyAccessor, hc, hf] at h
        simp [accessorOk, hc, hf, h]
      | some i =>
        simp [applyAccessor, hc, hf] at h
        simp [accessorOk, hc, hf, h]

theorem lookup_mem {α β : Type} [BEq α] {k : α} {l : List (α × β)} {b : β}
    (h : l.lookup k = some b) : ∃ k2, (k2, b) ∈ l := by
  induction l with
  | nil => simp [List.lookup] at h
  | cons p rest ih =>
    obtain ⟨k1, b1⟩ := p
    cases hbeq : k == k1 with
    | true =>
      simp only [List.lookup, hbeq] at h
      exact ⟨k1, by simp [← Option.some.inj h]⟩
    | false =>
      simp only [List.lookup, hbeq] at h
      obtain ⟨k2, hk2⟩ := ih h
      exact ⟨k2, List.mem_cons_of_mem _ hk2⟩

theorem getS2IdMemo_spec {C J : Type} {c : Columns} {st st1 : LayerState C J}
    {a : AccessorInst} (h : getS2IdMemo c st = .ok (a, st1)) :
    ∃ k, S2IdResolver c = .ok k ∧ st1.memoCache.lookup k = some a ∧
      st1.nextArrRef = st.nextArrRef ∧ st1.dataToFeature = st.dataToFeature := by
  cases hr : S2IdResolver c with
  | error e => simp [getS2IdMemo, hr] at h
  | ok k =>
    refine ⟨k, rfl, ?_⟩
    cases hl : st.memoCache.lookup k with
    | some b =>
      simp only [getS2IdMemo, hr, hl, Except.ok.injEq, Prod.mk.injEq] at h
      obtain ⟨h1, h2⟩ := h
      subst h1; subst h2
      exact ⟨hl, rfl, rfl⟩
    | none =>
      simp only [getS2IdMemo, hr, hl, Except.ok.injEq, Prod.mk.injEq] at h
      obtain ⟨h1, h2⟩ := h
      subst h1; subst h2
      refine ⟨?_, rfl, rfl⟩
      simp [List.lookup]

theorem getS2IdMemo_stable {C J : Type} {c : Columns} {st st1 : LayerState C J}
    {a : AccessorInst} (h : getS2IdMemo c st = .ok (a, st1)) :
    getS2IdMemo c st1 = .ok (a, st1) := by
  obtain ⟨k, hr, hl, -, -⟩ := getS2IdMemo_spec h
  simp [getS2IdMemo, hr, hl]

theorem getS2IdMemo_cases {C J : Type} {c : Columns} {st st1 : LayerState C J}
    {a : AccessorInst} (h : getS2IdMemo c st = .ok (a, st1)) :
    (∃ k2 : Option Nat, (k2, a) ∈ st.memoCache) ∨ a.captured = c.s2_id := by
  cases hr : S2IdResolver c with
  | error e => simp [getS2IdMemo, hr] at h
  | ok k =>
    cases hl : st.memoCache.lookup k with
    | some b =>
      simp only [getS2IdMemo, hr, hl, Except.ok.injEq, Prod.mk.injEq] at h
      obtain ⟨h1, -⟩ := h
      subst h1
      exact .inl (lookup_mem hl)
    | none =>
      simp only [getS2IdMemo, hr, hl, Except.ok.injEq, Prod.mk.injEq] at h
      obtain ⟨h1, -⟩ := h
      subst h1
      exact .inr rfl

theorem format_inv {V C RGB F S J : Type} {E : Externals V C RGB F S J}
    {cfg : Config F RGB J} {st st1 : LayerState C J} {allData : List (List V)}
    {fi : List Nat} {old : Option (OldFrame V C)} {opt : FormatOpt}
    {a : AccessorInst}
    {r : Except JsErr (FrameOut V C RGB J × LayerState C J × List (Event V))}
    (h0 : getS2IdMemo cfg.columns st = .ok (a, st1))
    (h : formatLayerData E cfg st allData fi old opt = r) :
    formatBody E cfg a st1 allData fi old opt = r := by
  rw [← h]; simp [formatLayerData, h0]

theorem metaStep_nextArrRef {V C RGB F S J : Type} {E : Externals V C RGB F S J}
    {allData : List (List V)} {old : Option (OldFrame V C)} {a : AccessorInst}
    {st : LayerState C J} :
    (metaStep E allData old a st).nextArrRef = st.nextArrRef := by
  unfold metaStep; split <;> rfl

theorem metaStep_memoCache {V C RGB F S J : Type} {E : Externals V C RGB F S J}
    {allData : List (List V)} {old : Option (OldFrame V C)} {a : AccessorInst}
    {st : LayerState C J} :
    (metaStep E allData old a st).memoCache = st.memoCache := by
  unfold metaStep; split <;> rfl

theorem reuseArr_isSome_eq {V C : Type} {old : Option (OldFrame V C)}
    {opt : FormatOpt} {a : AccessorInst} :
    (reuseArr old opt a).isSome = reuseConditions old opt a := by
  cases old with
  | none => rfl
  | some o =>
    cases hd : o.data with
    | none => simp [reuseArr, reuseConditions, hd]
    | some arr =>
      simp only [reuseArr, reuseConditions, hd, Option.isSome_some, Bool.true_and]
      cases hcond : (opt.sameData && sameAccessorRef o.getS2Id a) <;> simp [hcond]

theorem reuseArr_some_iff {V C : Type} {old : Option (OldFrame V C)}
    {opt : FormatOpt} {a : AccessorInst} {arr : JsArr (DerivedRow V C)} :
    reuseArr old opt a = some arr ↔
      ∃ o, old = some o ∧ o.data = some arr ∧ opt.sameData = true ∧
        sameAccessorRef o.getS2Id a = true := by
  constructor
  · intro h
    cases old with
    | none => simp [reuseArr] at h
    | some o =>
      cases hd : o.data with
      | none => simp [reuseArr, hd] at h
      | some arr1 =>
        simp only [reuseArr, hd] at h
        by_cases hs : (opt.sameData && sameAccessorRef o.getS2Id a) = true
        · obtain ⟨h1, h2⟩ := Bool.and_eq_true_iff.mp hs
          simp only [hs, if_true] at h
          exact ⟨o, rfl, by rw [hd, Option.some.inj h], h1, h2⟩
        · simp [hs] at h
  · rintro ⟨o, rfl, hd, hs, hr⟩
    simp [reuseArr, hd, hs, hr]

theorem metaNeeded_false_of_reuseArr {V C : Type} {old : Option (OldFrame V C)}
    {opt : FormatOpt} {a : AccessorInst} {arr : JsArr (DerivedRow V C)}
    (h : reuseArr old opt a = some arr) : metaNeeded old a = false := by
  obtain ⟨o, rfl, -, -, hr⟩ := reuseArr_some_iff.mp h
  simp [metaNeeded, hr]

theorem formatBody_inv {V C RGB F S J : Type} {E : Externals V C RGB F S J}
    {cfg : Config F RGB J} {a : AccessorInst} {st1 : LayerState C J}
    {allData : List (List V)} {fi : List Nat} {old : Option (OldFrame V C)}
    {opt : FormatOpt} {out : FrameOut V C RGB J} {st' : LayerState C J}
    {ev : List (Event V)}
    (h : formatBody E cfg a st1 allData fi old opt = .ok (out, st', ev)) :
    (∃ arr, reuseArr old opt a = some arr ∧
       out = mkFrame E cfg a arr (metaStep E allData old a st1) ∧
       st' = metaStep E allData old a st1 ∧
       ev = metaEvents allData old a ++ [Event.reuseData]) ∨
    (∃ rows, reuseArr old opt a = none ∧
       buildRows a allData (metaStep E allData old a st1).dataToFeature.centroids
         fi.enum = .ok rows ∧
       out = mkFrame E cfg a
               { ref := (metaStep E allData old a st1).nextArrRef, items := rows }
               { metaStep E allData old a st1 with
                 nextArrRef := (metaStep E allData old a st1).nextArrRef + 1 } ∧
       st' = { metaStep E allData old a st1 with
               nextArrRef := (metaStep E allData old a st1).nextArrRef + 1 } ∧
       ev = metaEvents allData old a ++ [Event.buildData]) := by
  cases hr : reuseArr old opt a with
  | some arr =>
    simp only [formatBody, hr, Except.ok.injEq, Prod.mk.injEq] at h
    exact .inl ⟨arr, rfl, h.1.symm, h.2.1.symm, h.2.2.symm⟩
  | none =>
    cases hb : buildRows a allData
        (metaStep E allData old a st1).dataToFeature.centroids fi.enum with
    | error e => simp [formatBody, hr, hb] at h
    | ok rows =>
      simp only [formatBody, hr, hb, Except.ok.injEq, Prod.mk.injEq] at h
      exact .inr ⟨rows, rfl, rfl, h.1.symm, h.2.1.symm, h.2.2.symm⟩

theorem buildRows_ok_items {V C : Type} {acc : AccessorInst}
    {allData : List (List V)} {cents : Option (List (Option C))} :
    ∀ {l : List (Nat × Nat)} {rows : List (DerivedRow V C)},
      buildRows acc allData cents l = .ok rows →
      rows = l.filterMap (builtRow acc allData cents) := by
  intro l
  induction l with
  | nil =>
    intro rows h
    simp only [buildRows, Except.ok.injEq] at h
    simp [← h]
  | cons p rest ih =>
    obtain ⟨i, index⟩ := p
    intro rows h
    cases ha : applyAccessor acc allData[index]? with
    | error e => simp [buildRows, ha] at h
    | ok id =>
      cases cents with
      | none => simp [buildRows, ha] at h
      | some cl =>
        cases hb : buildRows acc allData (some cl) rest with
        | error e => simp [buildRows, ha, hb] at h
        | ok tail =>
          have hid := applyAccessor_ok ha
          subst hid
          cases hc : centsGet (some cl) index with
          | some c =>
            simp only [buildRows, ha, hb, hc, Except.ok.injEq] at h
            subst h
            simp [List.filterMap_cons, builtRow, hc, ih hb]
          | none =>
            simp only [buildRows, ha, hb, hc, Except.ok.injEq] at h
            subst h
            simp [List.filterMap_cons, builtRow, hc, ih hb]

theorem buildRows_total {V C : Type} {acc : AccessorInst}
    {allData : List (List V)} {cl : List (Option C)}
    (hcap : acc.captured.isSome = true) :
    ∀ {l : List (Nat × Nat)}, (∀ p ∈ l, allData[p.2]?.isSome = true) →
      buildRows acc allData (some cl) l
        = .ok (l.filterMap (builtRow acc allData (some cl))) := by
  intro l
  induction l with
  | nil => intro _; simp [buildRows]
  | cons p rest ih =>
    obtain ⟨i, index⟩ := p
    intro hd
    obtain ⟨col, hcol⟩ := Option.isSome_iff_exists.mp hcap
    obtain ⟨row, hrow⟩ :=
      Option.isSome_iff_exists.mp (hd (i, index) (List.mem_cons_self ..))
    have ha : applyAccessor acc allData[index]?
        = .ok (accessorOk acc allData[index]?) := by
      simp only [applyAccessor, accessorOk, hcol, hrow]
      cases col.fieldIdx <;> simp
    have hrest := ih (fun q hq => hd q (List.mem_cons_of_mem _ hq))
    simp only [buildRows, ha, hrest]
    cases hc : centsGet (some cl) index <;>
      simp [builtRow, hc, List.filterMap_cons]

theorem length_filterMap_eq_iff {α β : Type} {f : α → Option β} :
    ∀ {l : List α},
      ((l.filterMap f).length = l.length ↔ ∀ x ∈ l, (f x).isSome = true) := by
  intro l
  induction l with
  | nil => simp
  | cons x rest ih =>
    cases hf : f x with
    | none =>
      simp only [List.filterMap_cons, hf, List.length_cons]
      constructor
      · intro h
        exfalso
        have hle := List.length_filterMap_le f rest
        omega
      · intro h
        have hx := h x (List.mem_cons_self ..)
        rw [hf] at hx
        simp at hx
    | some b =>
      simp only [List.filterMap_cons, hf, List.length_cons]
      constructor
      · intro h y hy
        rcases List.mem_cons.mp hy with rfl | hy2
        · simp [hf]
        · exact ih.mp (by omega) y hy2
      · intro h
        have := ih.mpr (fun y hy => h y (List.mem_cons_of_mem _ hy))
        omega

theorem forall_mem_enumFrom_iff {α : Type} (Q : α → Prop) :
    ∀ (l : List α) (n : Nat), (∀ p ∈ l.enumFrom n, Q p.2) ↔ ∀ x ∈ l, Q x := by
  intro l
  induction l with
  | nil => intro n; simp [List.enumFrom]
  | cons x rest ih =>
    intro n
    rw [List.enumFrom_cons, List.forall_mem_cons, List.forall_mem_cons]
    constructor
    · rintro ⟨h1, h2⟩
      exact ⟨h1, (ih (n + 1)).mp h2⟩
    · rintro ⟨h1, h2⟩
      exact ⟨h1, (ih (n + 1)).mpr h2⟩

theorem mem_enumFrom_decomp {α : Type} :
    ∀ (l : List α) (n : Nat) (p : Nat × α), p ∈ l.enumFrom n →
      ∃ j, p.1 = n + j ∧ l[j]? = some p.2 := by
  intro l
  induction l with
  | nil => intro n p h; simp [List.enumFrom] at h
  | cons x rest ih =>
    intro n p h
    rw [List.enumFrom_cons] at h
    rcases List.mem_cons.mp h with rfl | h2
    · exact ⟨0, by simp⟩
    · obtain ⟨j, hj1, hj2⟩ := ih (n + 1) p h2
      exact ⟨j + 1, by omega, by simpa using hj2⟩

theorem builtRow_isSome {V C : Type} {a : AccessorInst}
    {allData : List (List V)} {cents : Option (List (Option C))}
    {p : Nat × Nat} :
    (builtRow a allData cents p).isSome = (centsGet cents p.2).isSome := by
  unfold builtRow
  cases centsGet cents p.2 <;> simp

theorem mkFrame_data {V C RGB F S J : Type} {E : Externals V C RGB F S J}
    {cfg : Config F RGB J} {a : AccessorInst} {arr : JsArr (DerivedRow V C)}
    {st : LayerState C J} : (mkFrame E cfg a arr st).data = arr := rfl

theorem mkFrame_getS2Id {V C RGB F S J : Type} {E : Externals V C RGB F S J}
    {cfg : Config F RGB J} {a : AccessorInst} {arr : JsArr (DerivedRow V C)}
    {st : LayerState C J} : (mkFrame E cfg a arr st).getS2Id = a := rfl

theorem formatBody_state {V C RGB F S J : Type} {E : Externals V C RGB F S J}
    {cfg : Config F RGB J} {a : AccessorInst} {st1 : LayerState C J}
    {allData : List (List V)} {fi : List Nat} {old : Option (OldFrame V C)}
    {opt : FormatOpt} {out : FrameOut V C RGB J} {st' : LayerState C J}
    {ev : List (Event V)}
    (h : formatBody E cfg a st1 allData fi old opt = .ok (out, st', ev)) :
    out.getS2Id = a ∧ st'.memoCache = st1.memoCache := by
  rcases formatBody_inv h with ⟨arr, -, hout, hst, -⟩ | ⟨rows, -, -, hout, hst, -⟩ <;>
    subst hout <;> subst hst <;>
    exact ⟨rfl, by simp [metaStep_memoCache]⟩

theorem metaNeeded_true_iff {V C : Type} {old : Option (OldFrame V C)}
    {a : AccessorInst} :
    metaNeeded old a = true ↔
      (old = none ∨ ∃ o, old = some o ∧ sameAccessorRef o.getS2Id a = false) := by
  cases old with
  | none => simp [metaNeeded]
  | some o =>
    simp only [metaNeeded, Bool.not_eq_true']
    constructor
    · intro h; exact .inr ⟨o, rfl, h⟩
    · rintro (h | ⟨o2, ho2, h⟩)
      · cases h
      · cases Option.some.inj ho2; exact h

/-! Claim theorems. -/

/-- C4: the memoized accessor getter is keyed by the projection of the column
binding to its s2_id field index: two consecutive getS2Id calls whose bindings
carry the same field index return the exact same closure (reference equality of
the function instance), and the second call leaves the cache untouched. -/
theorem c4_accessor_memoized_by_field_index {C J : Type}
    (c1 c2 : Columns) (f1 f2 : S2Col) (st st1 st2 : LayerState C J)
    (a1 a2 : AccessorInst)
    (hc1 : c1.s2_id = some f1) (hc2 : c2.s2_id = some f2)
    (hf : f1.fieldIdx = f2.fieldIdx)
    (h1 : getS2IdMemo c1 st = .ok (a1, st1))
    (h2 : getS2IdMemo c2 st1 = .ok (a2, st2)) :
    a2 = a1 ∧ st2 = st1 := by
  obtain ⟨k, hr1, hl1, -, -⟩ := getS2IdMemo_spec h1
  have hr1b : S2IdResolver c1 = .ok f1.fieldIdx := by simp [S2IdResolver, hc1]
  have hk : k = f1.fieldIdx := by
    rw [hr1b] at hr1
    exact (Except.ok.inj hr1).symm
  subst hk
  have hr2 : S2IdResolver c2 = .ok f1.fieldIdx := by
    simp [S2IdResolver, hc2, hf]
  simp only [getS2IdMemo, hr2, hl1, Except.ok.injEq, Prod.mk.injEq] at h2
  exact ⟨h2.1.symm, h2.2.symm⟩

/-- Column binding and empty-cache state used to instantiate the memoization
claim on concrete inputs. -/
def colsA : Columns := { s2_id := some { fieldIdx := some 0 } }

def stEmpty : LayerState Nat Unit :=
  { memoCache := [], nextAccRef := 0, dataToFeature := dtfW, nextArrRef := 0 }

/-- C4 witness: a miss-then-hit pair of calls with the same field index yields
the identical closure instance. -/
theorem c4_accessor_memoized_by_field_index_witness :
    colsA.s2_id = some { fieldIdx := some 0 } ∧
    (⟨0, some { fieldIdx := some 0 }⟩ : AccessorInst)
      = ⟨0, some { fieldIdx := some 0 }⟩ := by
  refine ⟨rfl, ?_⟩
  have h := c4_accessor_memoized_by_field_index colsA colsA
    { fieldIdx := some 0 } { fieldIdx := some 0 } stEmpty
    { memoCache := [(some 0, ⟨0, some { fieldIdx := some 0 }⟩)],
      nextAccRef := 1, dataToFeature := dtfW, nextArrRef := 0 }
    { memoCache := [(some 0, ⟨0, some { fieldIdx := some 0 }⟩)],
      nextAccRef := 1, dataToFeature := dtfW, nextArrRef := 0 }
    ⟨0, some { fieldIdx := some 0 }⟩ ⟨0, some { fieldIdx := some 0 }⟩
    rfl rfl rfl rfl rfl
  exact h.1

/-- C6: a channel whose governing field is null builds no scale and its
resolver yields the constant fallback on every record: the static configured
colour for getColor, 0 for getElevation, and 1 for getCoverage. -/
theorem c6_null_field_constant_fallbacks {V C RGB F S J : Type}
    (E : Externals V C RGB F S J) (cfg : Config F RGB J)
    (st st' : LayerState C J) (allData : List (List V)) (fi : List Nat)
    (old : Option (OldFrame V C)) (opt : FormatOpt) (out : FrameOut V C RGB J)
    (ev : List (Event V))
    (h : formatLayerData E cfg st allData fi old opt = .ok (out, st', ev)) :
    (cfg.colorField = none →
      out.getColor = ChannelOut.const cfg.color ∧
      ∀ d, resolveChannel out.getColor d = cfg.color) ∧
    (cfg.sizeField = none →
      out.getElevation = ChannelOut.const 0 ∧
      ∀ d, resolveChannel out.getElevation d = 0) ∧
    (cfg.coverageField = none →
      out.getCoverage = ChannelOut.const 1 ∧
      ∀ d, resolveChannel out.getCoverage d = 1) := by
  cases hm : getS2IdMemo cfg.columns st with
  | error e => simp [formatLayerData, hm] at h
  | ok p =>
    obtain ⟨a, st1⟩ := p
    have hb := format_inv hm h
    have hout : ∃ arr stx, out = mkFrame E cfg a arr stx := by
      rcases formatBody_inv hb with ⟨arr, -, hout, -, -⟩ | ⟨rows, -, -, hout, -, -⟩
      · exact ⟨_, _, hout⟩
      · exact ⟨_, _, hout⟩
    obtain ⟨arr, stx, hout⟩ := hout
    subst hout
    refine ⟨?_, ?_, ?_⟩ <;> intro hf
    · exact ⟨by simp [mkFrame, mkGetColor, hf],
        fun d => by simp [mkFrame, mkGetColor, hf, resolveChannel]⟩
    · exact ⟨by simp [mkFrame, mkGetElevation, hf],
        fun d => by simp [mkFrame, mkGetElevation, hf, resolveChannel]⟩
    · exact ⟨by simp [mkFrame, mkGetCoverage, hf],
        fun d => by simp [mkFrame, mkGetCoverage, hf, resolveChannel]⟩

/-- C6 witness: on the concrete run all three fields are null and the three
resolvers return colour 5, elevation 0 and coverage 1 on the built record. -/
theorem c6_null_field_constant_fallbacks_witness :
    resolveChannel (mkFrame extW cfgW accW ⟨1, [rowW]⟩ stW2).getColor rowW = 5 ∧
    resolveChannel (mkFrame extW cfgW accW ⟨1, [rowW]⟩ stW2).getElevation rowW = 0 ∧
    resolveChannel (mkFrame extW cfgW accW ⟨1, [rowW]⟩ stW2).getCoverage rowW = 1 := by
  have h := c6_null_field_constant_fallbacks extW cfgW stW stW2 [[3], [4]] [0, 1]
    none ⟨false⟩ (mkFrame extW cfgW accW ⟨1, [rowW]⟩ stW2)
    [Event.updateMeta [[3], [4]] 0, Event.buildData] rfl
  exact ⟨(h.1 rfl).2 rowW, (h.2.1 rfl).2 rowW, (h.2.2 rfl).2 rowW⟩

/-- C2: on a rebuild (here with no previous frame) the binder iterates the
filtered indices in order and keeps, in that order, exactly the records whose
raw index has a centroid: the derived dataset is the filterMap of builtRow
over the position-enumerated filtered indices, its length is at most the
number of filtered indices, and the lengths agree exactly when every
referenced raw index has a centroid. -/
theorem c2_rebuild_is_ordered_centroid_join {V C RGB F S J : Type}
    (E : Externals V C RGB F S J) (cfg : Config F RGB J)
    (st st1 st' : LayerState C J) (a : AccessorInst) (allData : List (List V))
    (fi : List Nat) (opt : FormatOpt) (out : FrameOut V C RGB J)
    (ev : List (Event V))
    (h0 : getS2IdMemo cfg.columns st = .ok (a, st1))
    (h : formatLayerData E cfg st allData fi none opt = .ok (out, st', ev)) :
    out.data.items = fi.enum.filterMap
        (builtRow a allData (E.updateLayerMeta allData a).centroids) ∧
    out.data.items.length ≤ fi.length ∧
    (out.data.items.length = fi.length ↔
      ∀ idx ∈ fi,
        (centsGet (E.updateLayerMeta allData a).centroids idx).isSome
          = true) := by
  have hb := format_inv h0 h
  rcases formatBody_inv hb with ⟨arr, hr, -, -, -⟩ | ⟨rows, -, hbr, hout, -, -⟩
  · simp [reuseArr] at hr
  · have hms : metaStep E allData (none : Option (OldFrame V C)) a st1
        = { st1 with dataToFeature := E.updateLayerMeta allData a } := by
      simp [metaStep, metaNeeded]
    rw [hms] at hbr
    have hdi : out.data.items = rows := by subst hout; rfl
    have hitems := buildRows_ok_items hbr
    rw [hdi, hitems]
    refine ⟨rfl, ?_, ?_⟩
    · calc (fi.enum.filterMap
            (builtRow a allData (E.updateLayerMeta allData a).centroids)).length
          ≤ fi.enum.length := List.length_filterMap_le _ _
        _ = fi.length := List.enum_length
    · rw [show fi.length = fi.enum.length from List.enum_length.symm,
        length_filterMap_eq_iff]
      have htr := forall_mem_enumFrom_iff
        (fun idx =>
          (centsGet (E.updateLayerMeta allData a).centroids idx).isSome = true)
        fi 0
      constructor
      · intro hp
        refine htr.mp ?_
        intro p hp2
        rw [← builtRow_isSome]
        exact hp p hp2
      · intro hq p hp2
        rw [builtRow_isSome]
        exact htr.mpr hq p hp2

/-- C2 witness: on the concrete rebuild over filtered indices [0, 1] with a
centroid only at raw index 0, the derived dataset is the predicted join, its
length 1 is at most 2, and the equality characterization applies. -/
theorem c2_rebuild_is_ordered_centroid_join_witness :
    (mkFrame extW cfgW accW ⟨1, [rowW]⟩ stW2).data.items
      = ([0, 1] : List Nat).enum.filterMap
          (builtRow accW [[3], [4]] (extW.updateLayerMeta [[3], [4]] accW).centroids) ∧
    (mkFrame extW cfgW accW ⟨1, [rowW]⟩ stW2).data.items.length
      ≤ ([0, 1] : List Nat).length := by
  have h := c2_rebuild_is_ordered_centroid_join extW cfgW stW stW stW2 accW
    [[3], [4]] [0, 1] ⟨false⟩ (mkFrame extW cfgW accW ⟨1, [rowW]⟩ stW2)
    [Event.updateMeta [[3], [4]] 0, Event.buildData] rfl rfl
  exact ⟨h.1, h.2.1⟩

/-- C3: whenever no previous frame exists or its stored accessor reference
differs from the current one, the updateLayerMeta side effect runs over the
full raw dataset before the derived dataset is built: the event trace is
exactly update-then-build even when sameData is passed, the refreshed geometry
cache is stored in the returned state, and the rebuilt dataset is the one read
from that refreshed cache. -/
theorem c3_meta_refresh_precedes_rebuild {V C RGB F S J : Type}
    (E : Externals V C RGB F S J) (cfg : Config F RGB J)
    (st st1 st' : LayerState C J) (a : AccessorInst) (allData : List (List V))
    (fi : List Nat) (old : Option (OldFrame V C)) (opt : FormatOpt)
    (out : FrameOut V C RGB J) (ev : List (Event V))
    (h0 : getS2IdMemo cfg.columns st = .ok (a, st1))
    (h : formatLayerData E cfg st allData fi old opt = .ok (out, st', ev))
    (hm : old = none ∨ ∃ o, old = some o ∧ sameAccessorRef o.getS2Id a = false) :
    ev = [Event.updateMeta allData a.ref, Event.buildData] ∧
    st'.dataToFeature = E.updateLayerMeta allData a ∧
    out.data.items = fi.enum.filterMap
      (builtRow a allData (E.updateLayerMeta allData a).centroids) := by
  have hmn : metaNeeded old a = true := metaNeeded_true_iff.mpr hm
  have hb := format_inv h0 h
  rcases formatBody_inv hb with ⟨arr, hr, -, -, -⟩ | ⟨rows, -, hbr, hout, hst, hev⟩
  · have hfalse := metaNeeded_false_of_reuseArr hr
    rw [hmn] at hfalse
    cases hfalse
  · have hms : metaStep E allData old a st1
        = { st1 with dataToFeature := E.updateLayerMeta allData a } := by
      simp [metaStep, hmn]
    have hme : metaEvents allData old a = [Event.updateMeta allData a.ref] := by
      simp [metaEvents, hmn]
    rw [hms] at hbr hst
    have hdi : out.data.items = rows := by subst hout; rfl
    refine ⟨by rw [hev, hme]; rfl, by rw [hst], ?_⟩
    rw [hdi]
    simpa using buildRows_ok_items hbr

/-- C3 witness: the concrete no-previous-frame call with sameData passed still
refreshes the geometry cache and rebuilds from it. -/
theorem c3_meta_refresh_precedes_rebuild_witness :
    stW2.dataToFeature = extW.updateLayerMeta [[3], [4]] accW ∧
    (mkFrame extW cfgW accW ⟨1, [rowW]⟩ stW2).data.items
      = ([0, 1] : List Nat).enum.filterMap
          (builtRow accW [[3], [4]]
            (extW.updateLayerMeta [[3], [4]] accW).centroids) := by
  have h := c3_meta_refresh_precedes_rebuild extW cfgW stW stW stW2 accW
    [[3], [4]] [0, 1] none ⟨true⟩ (mkFrame extW cfgW accW ⟨1, [rowW]⟩ stW2)
    [Event.updateMeta [[3], [4]] 0, Event.buildData] rfl rfl (Or.inl rfl)
  exact ⟨h.2.1, h.2.2⟩

/-- C10: every record of a rebuilt derived dataset has a defined centroid taken
from the geometry cache at its raw index, stores a reference to the raw record
itself (allData at the filtered index recorded at the record's position), and
its id is the current accessor applied to that stored raw record; the inputs
allData and the filtered indices are read-only throughout. -/
theorem c10_rebuilt_record_invariant {V C RGB F S J : Type}
    (E : Externals V C RGB F S J) (cfg : Config F RGB J)
    (st st1 st' : LayerState C J) (a : AccessorInst) (allData : List (List V))
    (fi : List Nat) (old : Option (OldFrame V C)) (opt : FormatOpt)
    (out : FrameOut V C RGB J) (ev : List (Event V))
    (h0 : getS2IdMemo cfg.columns st = .ok (a, st1))
    (h : formatLayerData E cfg st allData fi old opt = .ok (out, st', ev))
    (hrb : reuseArr old opt a = none) :
    ∀ r ∈ out.data.items, ∃ idx,
      fi[r.index]? = some idx ∧
      r.data = allData[idx]? ∧
      r.id = accessorOk a r.data ∧
      centsGet (metaStep E allData old a st1).dataToFeature.centroids idx
        = some r.centroid := by
  have hb := format_inv h0 h
  rcases formatBody_inv hb with ⟨arr, hr, -, -, -⟩ | ⟨rows, -, hbr, hout, -, -⟩
  · rw [hrb] at hr
    cases hr
  · have hdi : out.data.items = rows := by subst hout; rfl
    have hitems := buildRows_ok_items hbr
    intro r hrmem
    rw [hdi, hitems] at hrmem
    obtain ⟨p, hp, hpr⟩ := (List.mem_filterMap ..).mp hrmem
    obtain ⟨i, idx⟩ := p
    cases hcg : centsGet
        (metaStep E allData old a st1).dataToFeature.centroids idx with
    | none =>
      simp only [builtRow, hcg] at hpr
      exact Option.noConfusion hpr
    | some c =>
      simp only [builtRow, hcg] at hpr
      obtain ⟨j, hij, hj⟩ := mem_enumFrom_decomp fi 0 (i, idx) hp
      have hii : i = j := by simpa using hij
      have hrr := Option.some.inj hpr
      subst hrr
      refine ⟨idx, ?_, rfl, rfl, by rw [hcg]⟩
      show fi[i]? = some idx
      rw [hii]
      exact hj

/-- C10 witness: the single record of the concrete rebuild satisfies the
invariant. -/
theorem c10_rebuilt_record_invariant_witness :
    ∃ idx, ([0, 1] : List Nat)[rowW.index]? = some idx ∧
      rowW.data = [[3], [4]][idx]? ∧
      rowW.id = accessorOk accW rowW.data ∧
      centsGet (metaStep extW [[3], [4]] (none : Option (OldFrame Nat Nat))
        accW stW).dataToFeature.centroids idx = some rowW.centroid := by
  exact c10_rebuilt_record_invariant extW cfgW stW stW stW2 accW [[3], [4]]
    [0, 1] none ⟨false⟩ (mkFrame extW cfgW accW ⟨1, [rowW]⟩ stW2)
    [Event.updateMeta [[3], [4]] 0, Event.buildData] rfl rfl rfl rowW
    (by simp [mkFrame])

theorem format_reuse_data {V C RGB F S J : Type} {E : Externals V C RGB F S J}
    {cfg : Config F RGB J} {st st1 st' : LayerState C J} {a : AccessorInst}
    {allData : List (List V)} {fi : List Nat} {old : Option (OldFrame V C)}
    {opt : FormatOpt} {arr : JsArr (DerivedRow V C)} {out : FrameOut V C RGB J}
    {ev : List (Event V)}
    (h0 : getS2IdMemo cfg.columns st = .ok (a, st1))
    (harr : reuseArr old opt a = some arr)
    (h : formatLayerData E cfg st allData fi old opt = .ok (out, st', ev)) :
    out.data = arr := by
  have hb := format_inv h0 h
  rcases formatBody_inv hb with ⟨arr2, hr, hout, -, -⟩ | ⟨rows, hr, -, -, -, -⟩
  · rw [harr] at hr
    cases Option.some.inj hr
    subst hout
    rfl
  · rw [harr] at hr
    exact Option.noConfusion hr

/-- C1 counterexample: with a previous frame whose derived dataset is the
empty array (defined but empty, hence truthy in JS), sameData set, and an
unchanged accessor, the binder returns the previous empty dataset verbatim
instead of the full rebuild the claim requires; the same inputs without the
previous frame show the rebuild would have produced a fresh one-record
array. -/
theorem c1_empty_previous_dataset_is_reused :
    formatLayerData extW cfgW stW [[3]] [0] (some oldW) ⟨true⟩
      = .ok (mkFrame extW cfgW accW ⟨0, []⟩ stW, stW, [Event.reuseData]) ∧
    formatLayerData extW cfgW stW [[3]] [0] none ⟨true⟩
      = .ok (mkFrame extW cfgW accW ⟨1, [rowW]⟩ stW2, stW2,
             [Event.updateMeta [[3]] 0, Event.buildData]) ∧
    oldW.data = some ⟨0, []⟩ :=
  ⟨rfl, rfl, rfl⟩

/-- C1 (amended): the previous frame's derived dataset is returned verbatim
(the same array object) exactly when a previous frame exists, its data
property is defined — an empty array qualifies, since a JS array is truthy —
the call passes sameData, and the stored accessor reference equals the current
one; whenever any condition fails, a rebuild runs (the event trace ends in
buildData) and the returned array is freshly allocated. -/
theorem c1_reuse_policy {V C RGB F S J : Type}
    (E : Externals V C RGB F S J) (cfg : Config F RGB J)
    (st st1 st' : LayerState C J) (a : AccessorInst) (allData : List (List V))
    (fi : List Nat) (old : Option (OldFrame V C)) (opt : FormatOpt)
    (out : FrameOut V C RGB J) (ev : List (Event V))
    (h0 : getS2IdMemo cfg.columns st = .ok (a, st1))
    (h : formatLayerData E cfg st allData fi old opt = .ok (out, st', ev))
    (hfresh : ∀ o arr, old = some o → o.data = some arr →
      arr.ref < st.nextArrRef) :
    ((Option.bind old OldFrame.data = some out.data) ↔
       reuseConditions old opt a = true) ∧
    (reuseConditions old opt a = false →
       ev.getLast? = some (Event.buildData) ∧
       out.data.ref = st.nextArrRef) := by
  obtain ⟨k, -, -, hna, -⟩ := getS2IdMemo_spec h0
  have hb := format_inv h0 h
  rcases formatBody_inv hb with ⟨arr, hr, hout, -, -⟩ | ⟨rows, hr, -, hout, -, hev⟩
  · have hcond : reuseConditions old opt a = true := by
      rw [← reuseArr_isSome_eq, hr]
      rfl
    obtain ⟨o, rfl, hdata, -, -⟩ := reuseArr_some_iff.mp hr
    have hod : out.data = arr := by subst hout; rfl
    refine ⟨?_, fun hfc => absurd (hcond.symm.trans hfc) (by simp)⟩
    simp [hcond, Option.bind, hdata, hod]
  · have hcond : reuseConditions old opt a = false := by
      rw [← reuseArr_isSome_eq, hr]
      rfl
    have href : out.data.ref = st.nextArrRef := by
      subst hout
      show (metaStep E allData old a st1).nextArrRef = st.nextArrRef
      rw [metaStep_nextArrRef, hna]
    refine ⟨⟨fun hbind => ?_, fun hfc => absurd (hcond.symm.trans hfc) (by simp)⟩,
      fun _ => ⟨by rw [hev]; exact List.getLast?_concat _, href⟩⟩
    exfalso
    cases old with
    | none => exact Option.noConfusion hbind
    | some o =>
      have hb2 : o.data = some out.data := hbind
      have hlt := hfresh o out.data rfl hb2
      omega

/-- C1 witness: on the concrete reuse call (previous frame present with a
defined dataset, sameData, unchanged accessor) both sides of the amended
equivalence hold. -/
theorem c1_reuse_policy_witness :
    ((Option.bind (some oldW) OldFrame.data
        = some (mkFrame extW cfgW accW ⟨0, []⟩ stW).data) ↔
      reuseConditions (some oldW) ⟨true⟩ accW = true) := by
  have hf : ∀ o arr, (some oldW : Option (OldFrame Nat Nat)) = some o →
      o.data = some arr → arr.ref < stW.nextArrRef := by
    intro o arr ho ha
    injection ho with ho2
    subst ho2
    have ha2 := Option.some.inj ha
    subst ha2
    exact Nat.zero_lt_one
  have h := c1_reuse_policy extW cfgW stW stW stW accW [[3]] [0] (some oldW)
    ⟨true⟩ (mkFrame extW cfgW accW ⟨0, []⟩ stW) [Event.reuseData] rfl rfl hf
  exact h.1

/-- C8: the reuse decision never consults the filtered indices: two calls from
the same state whose previous frame carries a defined dataset, with sameData
and an unchanged accessor reference, both return that previous dataset even
though their filtered-index sequences differ. -/
theorem c8_reuse_ignores_filtered_indices {V C RGB F S J : Type}
    (E : Externals V C RGB F S J) (cfg : Config F RGB J)
    (st st1 stA stB : LayerState C J) (a : AccessorInst)
    (allData : List (List V)) (fi1 fi2 : List Nat)
    (old : Option (OldFrame V C)) (opt : FormatOpt)
    (out1 out2 : FrameOut V C RGB J) (ev1 ev2 : List (Event V))
    (h0 : getS2IdMemo cfg.columns st = .ok (a, st1))
    (hc : reuseConditions old opt a = true)
    (h1 : formatLayerData E cfg st allData fi1 old opt = .ok (out1, stA, ev1))
    (h2 : formatLayerData E cfg st allData fi2 old opt = .ok (out2, stB, ev2)) :
    out1.data = out2.data ∧ Option.bind old OldFrame.data = some out1.data := by
  have hsome : (reuseArr old opt a).isSome = true := by
    rw [reuseArr_isSome_eq, hc]
  obtain ⟨arr, harr⟩ := Option.isSome_iff_exists.mp hsome
  have hd1 := format_reuse_data h0 harr h1
  have hd2 := format_reuse_data h0 harr h2
  obtain ⟨o, rfl, hdata, -, -⟩ := reuseArr_some_iff.mp harr
  refine ⟨by rw [hd1, hd2], ?_⟩
  show o.data = some out1.data
  rw [hdata, hd1]

/-- C8 witness: reuse calls over filtered indices [0] and [0, 5] both return
the previous (empty) dataset. -/
theorem c8_reuse_ignores_filtered_indices_witness :
    (mkFrame extW cfgW accW ⟨0, []⟩ stW).data
        = (mkFrame extW cfgW accW ⟨0, []⟩ stW).data ∧
    Option.bind (some oldW) OldFrame.data
        = some (mkFrame extW cfgW accW ⟨0, []⟩ stW).data := by
  exact c8_reuse_ignores_filtered_indices extW cfgW stW stW stW stW accW
    [[3]] [0] [0, 5] (some oldW) ⟨true⟩
    (mkFrame extW cfgW accW ⟨0, []⟩ stW) (mkFrame extW cfgW accW ⟨0, []⟩ stW)
    [Event.reuseData] [Event.reuseData] rfl rfl rfl rfl

/-- C5: calling the binder twice with identical inputs, the second time with
sameData and the previous frame produced by the first call (hence an unchanged
accessor reference), returns the first call's derived dataset itself. -/
theorem c5_second_call_returns_same_dataset {V C RGB F S J : Type}
    (E : Externals V C RGB F S J) (cfg : Config F RGB J)
    (st stA stB : LayerState C J) (allData : List (List V)) (fi : List Nat)
    (old0 : Option (OldFrame V C)) (out1 out2 : FrameOut V C RGB J)
    (ev1 ev2 : List (Event V))
    (h1 : formatLayerData E cfg st allData fi old0 ⟨false⟩ = .ok (out1, stA, ev1))
    (h2 : formatLayerData E cfg stA allData fi
            (some { data := some out1.data, getS2Id := some out1.getS2Id })
            ⟨true⟩ = .ok (out2, stB, ev2)) :
    out2.data = out1.data := by
  cases hm : getS2IdMemo cfg.columns st with
  | error e => simp [formatLayerData, hm] at h1
  | ok p =>
    obtain ⟨a, st1⟩ := p
    have hb1 := format_inv hm h1
    obtain ⟨hout1, hmemo⟩ := formatBody_state hb1
    obtain ⟨k, hr, hl, -, -⟩ := getS2IdMemo_spec hm
    have hl2 : stA.memoCache.lookup k = some a := by rw [hmemo]; exact hl
    have hstable : getS2IdMemo cfg.columns stA = .ok (a, stA) := by
      simp [getS2IdMemo, hr, hl2]
    have harr : reuseArr
        (some { data := some out1.data, getS2Id := some out1.getS2Id })
        (⟨true⟩ : FormatOpt) a = some out1.data := by
      simp [reuseArr, sameAccessorRef, hout1]
    exact format_reuse_data hstable harr h2

/-- C5 witness: the concrete rebuild followed by a sameData call with the
frame it produced returns the identical dataset. -/
theorem c5_second_call_returns_same_dataset_witness :
    (mkFrame extW cfgW accW ⟨1, [rowW]⟩ stW2).data
      = (mkFrame extW cfgW accW ⟨1, [rowW]⟩ stW2).data := by
  exact c5_second_call_returns_same_dataset extW cfgW stW stW2 stW2
    [[3], [4]] [0, 1] none
    (mkFrame extW cfgW accW ⟨1, [rowW]⟩ stW2)
    (mkFrame extW cfgW accW ⟨1, [rowW]⟩ stW2)
    [Event.updateMeta [[3], [4]] 0, Event.buildData] [Event.reuseData]
    rfl rfl

theorem getS2IdMemo_total {C J : Type} {c : Columns} {st : LayerState C J}
    {col : S2Col} (hcol : c.s2_id = some col)
    (hwf : ∀ p ∈ st.memoCache, p.2.captured.isSome = true) :
    ∃ a st1, getS2IdMemo c st = .ok (a, st1) ∧ a.captured.isSome = true := by
  have hr : S2IdResolver c = .ok col.fieldIdx := by simp [S2IdResolver, hcol]
  cases hl : st.memoCache.lookup col.fieldIdx with
  | some b =>
    refine ⟨b, st, by simp [getS2IdMemo, hr, hl], ?_⟩
    obtain ⟨k2, hk2⟩ := lookup_mem hl
    exact hwf (k2, b) hk2
  | none =>
    refine ⟨S2IdAccessor c st.nextAccRef,
      { st with
        memoCache := (col.fieldIdx, S2IdAccessor c st.nextAccRef) :: st.memoCache
        nextAccRef := st.nextAccRef + 1 },
      by simp [getS2IdMemo, hr, hl], ?_⟩
    simp [S2IdAccessor, hcol]

theorem formatBody_total_aux {V C RGB F S J : Type} (E : Externals V C RGB F S J)
    (cfg : Config F RGB J) (a : AccessorInst) (st1 : LayerState C J)
    (allData : List (List V)) (fi : List Nat) (old : Option (OldFrame V C))
    (opt : FormatOpt)
    (hcap : a.captured.isSome = true)
    (hidx : ∀ i ∈ fi, allData[i]?.isSome = true)
    (hsome : ((metaStep E allData old a st1).dataToFeature.centroids).isSome
      = true) :
    isOkE (formatBody E cfg a st1 allData fi old opt) = true := by
  cases hr : reuseArr old opt a with
  | some arr => simp [formatBody, hr, isOkE]
  | none =>
    obtain ⟨cl, hcl⟩ := Option.isSome_iff_exists.mp hsome
    have hdx := (forall_mem_enumFrom_iff
      (fun x => allData[x]?.isSome = true) fi 0).mpr hidx
    have hbb := @buildRows_total V C a allData cl hcap fi.enum hdx
    simp [formatBody, hr, hcl, hbb, isOkE]

/-- C7 counterexample: with the s2_id column binding wholly absent, the binder
throws a TypeError (the resolver reads fieldIdx of undefined) instead of
degrading to an accessor that reads undefined. -/
theorem c7_absent_binding_throws :
    formatLayerData extW { cfgW with columns := { s2_id := none } } stW
      [[3]] [0] none ⟨false⟩ = .error JsErr.typeError := rfl

/-- C7 (amended): with the s2_id binding present — its descriptor may still
lack a field index — well-formed cached closures, and in-range filtered rows,
the binder raises no exception: missing channel fields and missing centroids
degrade silently, and a binding whose descriptor has no field index yields an
accessor that reads undefined rather than failing.  A wholly absent s2_id
binding, by contrast, throws a TypeError (see the counterexample). -/
theorem c7_no_exception_on_degraded_inputs {V C RGB F S J : Type}
    (E : Externals V C RGB F S J) (cfg : Config F RGB J) (st : LayerState C J)
    (allData : List (List V)) (fi : List Nat) (opt : FormatOpt) (col : S2Col)
    (hcol : cfg.columns.s2_id = some col)
    (hwf : ∀ p ∈ st.memoCache, p.2.captured.isSome = true)
    (hidx : ∀ i ∈ fi, allData[i]?.isSome = true)
    (hcents : ∀ acc : AccessorInst,
      ((E.updateLayerMeta allData acc).centroids).isSome = true) :
    isOkE (formatLayerData E cfg st allData fi none opt) = true ∧
    (col.fieldIdx = none → ∀ (ref : Nat) (row : List V),
      applyAccessor (S2IdAccessor cfg.columns ref) (some row)
        = .ok (none : Option V)) := by
  constructor
  · obtain ⟨a, st1, hm, hcap⟩ := getS2IdMemo_total hcol hwf
    have hsome : ((metaStep E allData (none : Option (OldFrame V C)) a
        st1).dataToFeature.centroids).isSome = true := by
      rw [show metaStep E allData (none : Option (OldFrame V C)) a st1
            = { st1 with dataToFeature := E.updateLayerMeta allData a } from
          by simp [metaStep, metaNeeded]]
      exact hcents a
    have hbt := formatBody_total_aux E cfg a st1 allData fi none opt
      hcap hidx hsome
    rw [← hbt]
    simp [formatLayerData, hm]
  · intro hfi ref row
    simp [applyAccessor, S2IdAccessor, hcol, hfi]

/-- C7 witness: the concrete call with every channel field missing and a
centroid missing for raw index 1 completes without an exception. -/
theorem c7_no_exception_on_degraded_inputs_witness :
    isOkE (formatLayerData extW cfgW stW [[3], [4]] [0, 1] none ⟨false⟩)
      = true := by
  have h := c7_no_exception_on_degraded_inputs extW cfgW stW [[3], [4]] [0, 1]
    ⟨false⟩ { fieldIdx := some 0 } rfl (by decide) (by decide)
    (fun acc => rfl)
  exact h.1

/-- C9: in this embedding the binder is a function of its arguments, so equal
inputs give equal results and every call terminates by construction (there is
no suspension, cancellation, or timeout path); on JS-valid inputs — an s2_id
binding present, well-formed cached closures, in-range filtered indices, and a
centroids table available to whichever branch runs — the call completes with a
result after its single pass over the filtered indices. -/
theorem c9_binder_total_on_valid_inputs {V C RGB F S J : Type}
    (E : Externals V C RGB F S J) (cfg : Config F RGB J) (st : LayerState C J)
    (allData : List (List V)) (fi : List Nat) (old : Option (OldFrame V C))
    (opt : FormatOpt) (col : S2Col)
    (hcol : cfg.columns.s2_id = some col)
    (hwf : ∀ p ∈ st.memoCache, p.2.captured.isSome = true)
    (hidx : ∀ i ∈ fi, allData[i]?.isSome = true)
    (hcents : ∀ acc : AccessorInst,
      ((E.updateLayerMeta allData acc).centroids).isSome = true)
    (hcents0 : st.dataToFeature.centroids.isSome = true) :
    isOkE (formatLayerData E cfg st allData fi old opt) = true := by
  obtain ⟨a, st1, hm, hcap⟩ := getS2IdMemo_total hcol hwf
  obtain ⟨k, -, -, -, hdf⟩ := getS2IdMemo_spec hm
  have hsome : ((metaStep E allData old a st1).dataToFeature.centroids).isSome
      = true := by
    unfold metaStep
    split
    · exact hcents a
    · rw [hdf]
      exact hcents0
  have hbt := formatBody_total_aux E cfg a st1 allData fi old opt
    hcap hidx hsome
  rw [← hbt]
  simp [formatLayerData, hm]

/-- C9 witness: the concrete call with a previous frame completes. -/
theorem c9_binder_total_on_valid_inputs_witness :
    isOkE (formatLayerData extW cfgW stW [[3], [4]] [0, 1] (some oldW) ⟨false⟩)
      = true := by
  exact c9_binder_total_on_valid_inputs extW cfgW stW [[3], [4]] [0, 1]
    (some oldW) ⟨false⟩ { fieldIdx := some 0 } rfl (by decide) (by decide)
    (fun acc => rfl) rfl

end S2Geometry
